import Mathlib

/-!
Verification of the keyboard-layout-changer core (src/main.py):
transliteration tables, layout-direction detection, the clipboard
retry arbiter, the correction workflow cycle, and hotkey rebinding.
-/

/-- Source string of the RU→EN table (src/main.py line 35). -/
def RU : String := "йцукенгшщзхъфывапролджэячсмитьбюё,.\"№;:?"

/-- Python `RU.upper()`: Cyrillic letters uppercased, punctuation unchanged. -/
def RU_UPPER : String := "ЙЦУКЕНГШЩЗХЪФЫВАПРОЛДЖЭЯЧСМИТЬБЮЁ,.\"№;:?"

/-- Destination string of the RU→EN table (src/main.py line 36). -/
def EN : String := "qwertyuiop[]asdfghjkl;\x27zxcvbnm,.\x60?/@#$^&"

/-- Shifted-row destination string (src/main.py line 37). -/
def EN_UPPER : String := "QWERTYUIOP\x7b\x7dASDFGHJKL:\"ZXCVBNM<>~?/@#$^&"

/-- The RU alphabet counting set (src/main.py line 31); note it has no ё. -/
def RU_CHARS : List Char :=
  "йцукенгшщзхъфывапролджэячсмитьбюЙЦУКЕНГШЩЗХЪФЫВАПРОЛДЖЭЯЧСМИТЬБЮ".data

/-- The EN alphabet counting set (src/main.py line 32). -/
def EN_CHARS : List Char :=
  "qwertyuiopasdfghjklzxcvbnmQWERTYUIOPASDFGHJKLZXCVBNM".data

/-- Python `str.maketrans(src, dst)` as an association list; on duplicate
keys the dict keeps the last assignment, which `transLookup?` mirrors by
searching the reversed list. -/
def maketrans (src dst : String) : List (Char × Char) :=
  src.data.zip dst.data

/-- The RU→EN translation table (src/main.py line 38). -/
def ru_to_en : List (Char × Char) := maketrans (RU ++ RU_UPPER) (EN ++ EN_UPPER)

/-- The EN→RU translation table (src/main.py line 39). -/
def en_to_ru : List (Char × Char) := maketrans (EN ++ EN_UPPER) (RU ++ RU_UPPER)

/-- Dictionary lookup, last assignment wins (Python dict semantics). -/
def transLookup? (t : List (Char × Char)) (c : Char) : Option Char :=
  (t.reverse.find? (fun p => decide (p.1 = c))).map (fun p => p.2)

/-- Total lookup as used by `str.translate`: unmapped characters pass through. -/
def transLookup (t : List (Char × Char)) (c : Char) : Char :=
  (transLookup? t c).getD c

/-- The keys (domain) of a translation table. -/
def transKeys (t : List (Char × Char)) : List Char := t.map (fun p => p.1)

/-- The values (codomain) of a translation table. -/
def transVals (t : List (Char × Char)) : List Char := t.map (fun p => p.2)

/-- Python `text.translate(t)`: apply the substitution to every character. -/
def str_translate (t : List (Char × Char)) (text : String) : String :=
  ⟨text.data.map (transLookup t)⟩

/-- `ru_count` of detect_direction (src/main.py line 192). -/
def ru_count (text : String) : Nat :=
  text.data.countP (fun ch => decide (ch ∈ RU_CHARS))

/-- `en_count` of detect_direction (src/main.py line 193). -/
def en_count (text : String) : Nat :=
  text.data.countP (fun ch => decide (ch ∈ EN_CHARS))

/-- detect_direction (src/main.py lines 176-200). -/
def detect_direction (text : String) : String :=
  if en_count text > ru_count text then "ru"
  else if ru_count text > en_count text then "en"
  else "none"

/-- fix_layout (src/main.py lines 202-218). -/
def fix_layout (text : String) : String :=
  let direction := detect_direction text
  if direction = "ru" then str_translate en_to_ru text
  else if direction = "en" then str_translate ru_to_en text
  else text

/-- Outcome of one clipboard attempt: success, or a `pywintypes.error`
with the given Windows error code (5 = access denied, the transient
clipboard-owned-by-another-process cause). -/
inductive Attempt where
  | ok : Attempt
  | err : Nat → Attempt
deriving DecidableEq

/-- Observable outcome of `get_clipboard_text`: the clipboard content was
read, the empty string was returned after exhausting all retries, or a
non-transient error was raised to the caller. -/
inductive GetResult where
  | got : GetResult
  | empty : GetResult
  | raised : Nat → GetResult
deriving DecidableEq

/-- Observable outcome of `set_clipboard_text`: the write happened, the
function returned with no write after exhausting all retries, or a
non-transient error was raised to the caller. -/
inductive SetResult where
  | written : SetResult
  | silent : SetResult
  | raised : Nat → SetResult
deriving DecidableEq

/-- The retry loop of get_clipboard_text (src/main.py lines 126-147):
attempt `i`; on error code 5 sleep and continue, otherwise re-raise;
after the last attempt fall through and return "". -/
def getClipLoop (att : Nat → Attempt) : Nat → Nat → GetResult
  | _, 0 => GetResult.empty
  | i, fuel + 1 =>
    match att i with
    | Attempt.ok => GetResult.got
    | Attempt.err c => if c = 5 then getClipLoop att (i + 1) fuel else GetResult.raised c

/-- get_clipboard_text (src/main.py lines 113-147), over an oracle giving
each attempt's outcome. -/
def get_clipboard_text (att : Nat → Attempt) (retries : Nat) : GetResult :=
  getClipLoop att 0 retries

/-- The retry loop of set_clipboard_text (src/main.py lines 158-172):
attempt `i`; on error code 5 sleep and continue, otherwise re-raise;
after the last attempt fall through and return None. -/
def setClipLoop (att : Nat → Attempt) : Nat → Nat → SetResult
  | _, 0 => SetResult.silent
  | i, fuel + 1 =>
    match att i with
    | Attempt.ok => SetResult.written
    | Attempt.err c => if c = 5 then setClipLoop att (i + 1) fuel else SetResult.raised c

/-- set_clipboard_text (src/main.py lines 149-172), over an oracle giving
each attempt's outcome. -/
def set_clipboard_text (att : Nat → Attempt) (retries : Nat) : SetResult :=
  setClipLoop att 0 retries

/-- Observable outcome of one correction cycle (one on_hotkey call):
`err` is the code of the propagated exception if one was raised, `clip`
the clipboard content when the cycle ends, `restoreAttempted` whether the
cycle reached a `set_clipboard_text old` restore call, and `pasted` the
clipboard content at the synthetic Ctrl+V, when the cycle got there. -/
structure CycleResult where
  err : Option Nat
  clip : String
  restoreAttempted : Bool
  pasted : Option String
deriving DecidableEq

/-- on_hotkey (src/main.py lines 222-269). `att call i` is the outcome of
attempt `i` of the cycle's `call`-th clipboard operation (0 = snapshot
read, 1 = arming clear, 2 = selection read, 3 = result write or restore
in the no-selection branch, 4 = final restore); `sel` is the text the
synthetic Ctrl+C copies ("" = nothing selected, the copy leaves the
clipboard alone); `c0` is the clipboard content when the cycle starts.
All clipboard calls use the code's default of 5 retries; a raised
exception propagates out of on_hotkey at once (there is no try/finally). -/
def on_hotkey (att : Nat → Nat → Attempt) (sel c0 : String) : CycleResult :=
  match get_clipboard_text (att 0) 5 with
  | GetResult.raised c => ⟨some c, c0, false, none⟩
  | g0 =>
    let old : String := match g0 with | GetResult.got => c0 | _ => ""
    match set_clipboard_text (att 1) 5 with
    | SetResult.raised c => ⟨some c, c0, false, none⟩
    | s1 =>
      let c1 : String := match s1 with | SetResult.written => "" | _ => c0
      let c2 : String := if sel = "" then c1 else sel
      match get_clipboard_text (att 2) 5 with
      | GetResult.raised c => ⟨some c, c2, false, none⟩
      | g2 =>
        let selected : String := match g2 with | GetResult.got => c2 | _ => ""
        if selected = "" then
          match set_clipboard_text (att 3) 5 with
          | SetResult.raised c => ⟨some c, c2, true, none⟩
          | SetResult.written => ⟨none, old, true, none⟩
          | SetResult.silent => ⟨none, c2, true, none⟩
        else
          let fixed := fix_layout selected
          match set_clipboard_text (att 3) 5 with
          | SetResult.raised c => ⟨some c, c2, false, none⟩
          | s3 =>
            let c3 : String := match s3 with | SetResult.written => fixed | _ => c2
            match set_clipboard_text (att 4) 5 with
            | SetResult.raised c => ⟨some c, c3, true, some c3⟩
            | SetResult.written => ⟨none, old, true, some c3⟩
            | SetResult.silent => ⟨none, c3, true, some c3⟩

/-- Oracle under which every clipboard attempt succeeds. -/
def attAllOk : Nat → Nat → Attempt := fun _ _ => Attempt.ok

/-- Oracle under which every attempt fails with the transient code 5. -/
def attAllDenied : Nat → Attempt := fun _ => Attempt.err 5

/-- Oracle whose result-write call (call 3) raises a non-transient error
(code 6) on its first attempt; every other call succeeds. -/
def attWriteRaises : Nat → Nat → Attempt :=
  fun call _ => if call = 3 then Attempt.err 6 else Attempt.ok

/-- State shared by the hotkey rebinding protocol: the active
registrations of the `keyboard` library (id paired with the bound
combination string), the library's next fresh id, the persisted
configuration (save_hotkey, src/main.py lines 98-109), and the module
globals current_hotkey_str / current_hotkey_id (src/main.py lines 59-60). -/
structure HkState where
  regs : List (Nat × String)
  nextId : Nat
  config : Option String
  curStr : Option String
  curId : Option Nat
deriving DecidableEq

/-- `keyboard.remove_hotkey(id)` wrapped in the code's try/except KeyError
(src/main.py lines 283-287): removing an absent id is a benign no-op. -/
def remove_hotkey (id : Nat) (s : HkState) : HkState :=
  { s with regs := s.regs.filter (fun p => decide (p.1 ≠ id)) }

/-- `keyboard.add_hotkey(hotkey, ...)`: installs a fresh registration and
returns its id. -/
def add_hotkey (hk : String) (s : HkState) : Nat × HkState :=
  (s.nextId, { s with regs := s.regs ++ [(s.nextId, hk)], nextId := s.nextId + 1 })

/-- register_hotkey (src/main.py lines 271-291): unregister the old id if
any, set current_hotkey_str, add the new registration, store its id,
persist the combination. -/
def register_hotkey (hk : String) (s : HkState) : HkState :=
  let s1 := match s.curId with
    | some i => remove_hotkey i s
    | none => s
  let s2 := { s1 with curStr := some hk }
  let (i, s3) := add_hotkey hk s2
  let s4 := { s3 with curId := some i }
  { s4 with config := some hk }

/-- Program start: no registration, no persisted hotkey, empty globals. -/
def hkInit : HkState := ⟨[], 0, none, none, none⟩

/-- The binding invariant: at most one registration is active, and any
active registration is the one the globals point at and carries the
persisted combination. -/
def HkInv (s : HkState) : Prop :=
  s.regs.length ≤ 1 ∧ ∀ p ∈ s.regs, s.curId = some p.1 ∧ s.config = some p.2

instance (s : HkState) : Decidable (HkInv s) := by
  unfold HkInv; infer_instance

/-- Modelled from the spec: the "uppercase form" of a character, i.e.
Unicode simple uppercase on the ASCII and Cyrillic ranges this program
touches; characters without an uppercase form are their own uppercase. -/
def specUpperChar (c : Char) : Char :=
  if 'a' ≤ c ∧ c ≤ 'z' then Char.ofNat (c.toNat - 32)
  else if 'а' ≤ c ∧ c ≤ 'я' then Char.ofNat (c.toNat - 32)
  else if c = 'ё' then 'Ё'
  else c

/-- Oracle whose result-write call (call 3) exhausts all its attempts
with the transient code 5; every other call succeeds. -/
def attWriteExhausts : Nat → Nat → Attempt :=
  fun call _ => if call = 3 then Attempt.err 5 else Attempt.ok

theorem roundtrip_chars :
    ∀ c ∈ (RU ++ RU_UPPER).data, transLookup en_to_ru (transLookup ru_to_en c) = c := by
  decide

/-- Claim C1: for every string confined to the mapped alphabet plus
punctuation set (the characters of the RU→EN table's source strings RU
and RU.upper(), i.e. the Cyrillic alphabet in both cases plus the mapped
punctuation), translating RU→EN and then EN→RU is the identity. -/
theorem C1_round_trip (s : String) (h : ∀ c ∈ s.data, c ∈ (RU ++ RU_UPPER).data) :
    str_translate en_to_ru (str_translate ru_to_en s) = s := by
  cases s with
  | mk l =>
    show String.mk ((l.map (transLookup ru_to_en)).map (transLookup en_to_ru)) = String.mk l
    rw [List.map_map]
    congr 1
    have h2 : ∀ c ∈ l, (transLookup en_to_ru ∘ transLookup ru_to_en) c = id c :=
      fun c hc => roundtrip_chars c (h c hc)
    rw [List.map_congr_left h2, List.map_id]

/-- Claim C1 witness at the concrete string "Привет,". -/
theorem C1_round_trip_witness :
    (∀ c ∈ "Привет,".data, c ∈ (RU ++ RU_UPPER).data) ∧
    str_translate en_to_ru (str_translate ru_to_en "Привет,") = "Привет," :=
  ⟨by decide, C1_round_trip "Привет," (by decide)⟩

/-- Claim C2: detect_direction counts the characters in the RU and EN
alphabet sets and returns "ru" exactly when the EN count exceeds the RU
count, "en" exactly when the RU count exceeds the EN count, and "none"
exactly when the counts are equal. -/
theorem C2_detect_direction_cases (text : String) :
    (detect_direction text = "ru" ↔ en_count text > ru_count text) ∧
    (detect_direction text = "en" ↔ ru_count text > en_count text) ∧
    (detect_direction text = "none" ↔ ru_count text = en_count text) := by
  unfold detect_direction
  split_ifs with h1 h2
  · exact ⟨⟨fun _ => h1, fun _ => rfl⟩,
      ⟨fun hx => absurd hx (by decide), fun hx => absurd h1 (by omega)⟩,
      ⟨fun hx => absurd hx (by decide), fun hx => absurd h1 (by omega)⟩⟩
  · exact ⟨⟨fun hx => absurd hx (by decide), fun hx => absurd hx h1⟩,
      ⟨fun _ => h2, fun _ => rfl⟩,
      ⟨fun hx => absurd hx (by decide), fun hx => absurd h2 (by omega)⟩⟩
  · exact ⟨⟨fun hx => absurd hx (by decide), fun hx => absurd hx h1⟩,
      ⟨fun hx => absurd hx (by decide), fun hx => absurd hx h2⟩,
      ⟨fun _ => by omega, fun _ => rfl⟩⟩

/-- Claim C9 counterexample: the empty string is (vacuously) composed
solely of RU-alphabet characters, yet detect_direction returns "none",
not "en". -/
theorem C9_counterexample : detect_direction "" ≠ "en" := by decide

/-- Claim C9 (amended): for every non-empty string composed solely of
RU-alphabet characters, detect_direction returns "en". -/
theorem C9_ru_only_detects_en (text : String) (hne : text ≠ "")
    (h : ∀ ch ∈ text.data, ch ∈ RU_CHARS) : detect_direction text = "en" := by
  have hru : ru_count text = text.data.length := by
    unfold ru_count
    rw [List.countP_eq_length]
    intro a ha
    simpa using h a ha
  have hdisj : ∀ c ∈ RU_CHARS, c ∉ EN_CHARS := by decide
  have hen : en_count text = 0 := by
    unfold en_count
    exact List.countP_eq_zero.mpr (fun a ha => by simpa using hdisj a (h a ha))
  have hlen : 0 < text.data.length := by
    cases text with
    | mk l =>
      cases l with
      | nil => exact absurd rfl hne
      | cons a t => simp
  have h1 : ¬ (en_count text > ru_count text) := by omega
  have h2 : ru_count text > en_count text := by omega
  simp [detect_direction, h1, h2]

/-- Claim C9 witness at the concrete string "привет". -/
theorem C9_ru_only_detects_en_witness : detect_direction "привет" = "en" :=
  C9_ru_only_detects_en "привет" (by decide) (by decide)

/-- Claim C10: 'ё' and 'Ё' are in the translation tables' domain but in
neither alphabet counting set, so every non-empty string of only 'ё' and
'Ё' detects as "none" and is left unchanged by fix_layout. -/
theorem C10_yo_chars :
    ('ё' ∈ transKeys ru_to_en ∧ 'Ё' ∈ transKeys ru_to_en ∧
     'ё' ∉ RU_CHARS ∧ 'ё' ∉ EN_CHARS ∧ 'Ё' ∉ RU_CHARS ∧ 'Ё' ∉ EN_CHARS) ∧
    ∀ text : String, text ≠ "" → (∀ ch ∈ text.data, ch = 'ё' ∨ ch = 'Ё') →
      detect_direction text = "none" ∧ fix_layout text = text := by
  refine ⟨by decide, fun text _ h => ?_⟩
  have hru : ru_count text = 0 := by
    unfold ru_count
    refine List.countP_eq_zero.mpr (fun a ha => ?_)
    rcases h a ha with h1 | h1 <;> subst h1 <;> decide
  have hen : en_count text = 0 := by
    unfold en_count
    refine List.countP_eq_zero.mpr (fun a ha => ?_)
    rcases h a ha with h1 | h1 <;> subst h1 <;> decide
  have hdet : detect_direction text = "none" := by
    simp [detect_direction, hru, hen]
  refine ⟨hdet, ?_⟩
  unfold fix_layout
  rw [hdet, if_neg (by decide), if_neg (by decide)]

/-- Claim C10 witness at the concrete string "ёЁё". -/
theorem C10_yo_chars_witness :
    detect_direction "ёЁё" = "none" ∧ fix_layout "ёЁё" = "ёЁё" :=
  C10_yo_chars.2 "ёЁё" (by decide) (by decide)

theorem transLookup_mem {t : List (Char × Char)} {c d : Char}
    (h : transLookup? t c = some d) : c ∈ transKeys t := by
  unfold transLookup? at h
  cases hf : t.reverse.find? (fun p => decide (p.1 = c)) with
  | none => rw [hf] at h; simp at h
  | some p =>
    have hp := @List.find?_some _ (fun q : Char × Char => decide (q.1 = c)) p t.reverse hf
    have hmem : p ∈ t.reverse := List.mem_of_find?_eq_some hf
    rw [List.mem_reverse] at hmem
    have hc : p.1 = c := of_decide_eq_true hp
    rw [← hc]
    exact List.mem_map_of_mem (fun q => q.1) hmem

theorem transLookup_of_some {t : List (Char × Char)} {c d : Char}
    (h : transLookup? t c = some d) : transLookup t c = d := by
  unfold transLookup
  rw [h]
  rfl

theorem ru_to_en_inv_fwd :
    ∀ a ∈ transKeys ru_to_en, transLookup? en_to_ru (transLookup ru_to_en a) = some a := by
  decide

theorem en_to_ru_inv_fwd :
    ∀ b ∈ transKeys en_to_ru, transLookup? ru_to_en (transLookup en_to_ru b) = some b := by
  decide

/-- Claim C6 counterexample: ',' is in ru_to_en's domain (it is mapped,
to '?'), yet ',' also appears as a codomain value of ru_to_en itself
(ru_to_en sends 'б' to ','), so a character of the map's domain does
appear as a codomain value of the very map whose domain it is in. -/
theorem C6_counterexample :
    transLookup? ru_to_en ',' = some '?' ∧ transLookup ru_to_en 'б' = ',' := by
  decide

/-- Claim C6 (amended): the two maps are exact inverses of each other
(ru_to_en sends a to b precisely when en_to_ru sends b to a); the
domain/codomain disjointness, however, only holds outside the six
punctuation characters shared by both layouts — any character lying both
in a map's domain and in its own codomain is one of , . " ; : ?. -/
theorem C6_tables_inverse :
    (∀ a b : Char, transLookup? ru_to_en a = some b ↔ transLookup? en_to_ru b = some a) ∧
    (∀ c ∈ transKeys ru_to_en, c ∈ transVals ru_to_en → c ∈ [',', '.', '"', ';', ':', '?']) ∧
    (∀ c ∈ transKeys en_to_ru, c ∈ transVals en_to_ru → c ∈ [',', '.', '"', ';', ':', '?']) := by
  refine ⟨fun a b => ⟨fun h => ?_, fun h => ?_⟩, by decide, by decide⟩
  · rw [← transLookup_of_some h]
    exact ru_to_en_inv_fwd a (transLookup_mem h)
  · rw [← transLookup_of_some h]
    exact en_to_ru_inv_fwd b (transLookup_mem h)

/-- Claim C6 witness: the inverse direction evaluated at ',' ↦ '?', and
the overlap bound evaluated at ','. -/
theorem C6_tables_inverse_witness :
    transLookup? en_to_ru '?' = some ',' ∧ ',' ∈ [',', '.', '"', ';', ':', '?'] :=
  ⟨(C6_tables_inverse.1 ',' '?').mp (by decide),
   C6_tables_inverse.2.1 ',' (by decide) (by decide)⟩

/-- Claim C7 counterexample: 'Х' is in the mapped RU alphabet and its
lowercase form 'х' translates to '[', but ru_to_en sends 'Х' to the
shifted key '\x7b', which is not the uppercase form of '[' ('[' has
none, so its uppercase form is itself). -/
theorem C7_counterexample :
    transLookup ru_to_en 'х' = '[' ∧
    transLookup ru_to_en 'Х' ≠ specUpperChar (transLookup ru_to_en 'х') := by
  decide

/-- Claim C7 (amended): the substitution is case-preserving on every
mapped-alphabet character whose lowercase form translates to a letter
(all EN-alphabet characters under en_to_ru, and the RU-alphabet
characters whose ru_to_en image is a Latin letter — the remaining ones,
х ъ ж э б ю, translate to unshifted/shifted punctuation pairs instead);
characters outside a table's domain, in particular whitespace and
digits, pass through unchanged; and "Ghbdtn" detects as "ru" and
transliterates to "Привет". -/
theorem C7_case_preservation :
    (∀ c ∈ EN_CHARS,
      transLookup en_to_ru (specUpperChar c) = specUpperChar (transLookup en_to_ru c)) ∧
    (∀ c ∈ RU_CHARS, transLookup ru_to_en c ∈ EN_CHARS →
      transLookup ru_to_en (specUpperChar c) = specUpperChar (transLookup ru_to_en c)) ∧
    (∀ t : List (Char × Char), ∀ c : Char, c ∉ transKeys t → transLookup t c = c) ∧
    (∀ c ∈ " \t\n0123456789".data,
      transLookup ru_to_en c = c ∧ transLookup en_to_ru c = c) ∧
    detect_direction "Ghbdtn" = "ru" ∧ fix_layout "Ghbdtn" = "Привет" := by
  refine ⟨by decide, by decide, ?_, by decide, by decide, by decide⟩
  intro t c hc
  unfold transLookup transLookup?
  have hnone : t.reverse.find? (fun p => decide (p.1 = c)) = none := by
    rw [List.find?_eq_none]
    intro p hp
    simp only [decide_eq_true_eq]
    intro heq
    exact hc (heq ▸ List.mem_map_of_mem (fun q => q.1) (List.mem_reverse.mp hp))
  rw [hnone]
  rfl

/-- Claim C7 witness: case preservation evaluated at 'q' and 'й', the
pass-through at '7' and ' ' (not in either table's domain). -/
theorem C7_case_preservation_witness :
    transLookup en_to_ru (specUpperChar 'q') = specUpperChar (transLookup en_to_ru 'q') ∧
    transLookup ru_to_en (specUpperChar 'й') = specUpperChar (transLookup ru_to_en 'й') ∧
    transLookup ru_to_en '7' = '7' ∧
    transLookup en_to_ru ' ' = ' ' :=
  ⟨C7_case_preservation.1 'q' (by decide),
   C7_case_preservation.2.1 'й' (by decide) (by decide),
   C7_case_preservation.2.2.1 ru_to_en '7' (by decide),
   C7_case_preservation.2.2.1 en_to_ru ' ' (by decide)⟩

theorem setClipLoop_all_denied (att : Nat → Attempt) :
    ∀ fuel i, (∀ j, i ≤ j → j < i + fuel → att j = Attempt.err 5) →
      setClipLoop att i fuel = SetResult.silent := by
  intro fuel
  induction fuel with
  | zero => intro i _; rfl
  | succ n ih =>
    intro i h
    show (match att i with
      | Attempt.ok => SetResult.written
      | Attempt.err c => if c = 5 then setClipLoop att (i + 1) n
          else SetResult.raised c) = SetResult.silent
    rw [h i (Nat.le_refl i) (by omega)]
    show (if 5 = 5 then setClipLoop att (i + 1) n else SetResult.raised 5) = SetResult.silent
    rw [if_pos rfl]
    exact ih (i + 1) (fun j hj1 hj2 => h j (by omega) (by omega))

/-- Claim C3 counterexample: when every one of the 5 attempts fails with
the transient clipboard-owned code 5, set_clipboard_text does not raise
— it returns silently (the loop falls through with no error reported),
contrary to the claimed hard failure. -/
theorem C3_counterexample : set_clipboard_text attAllDenied 5 = SetResult.silent := by
  decide

/-- Claim C3 (amended): for every retry budget and every attempt oracle
that fails each attempt with the transient clipboard-owned cause,
set_clipboard_text exhausts its attempts and returns silently — the
exhaustion is neither reported to the caller nor distinguishable from
success. -/
theorem C3_exhaustion_silent (att : Nat → Attempt) (retries : Nat)
    (h : ∀ i, i < retries → att i = Attempt.err 5) :
    set_clipboard_text att retries = SetResult.silent := by
  unfold set_clipboard_text
  exact setClipLoop_all_denied att retries 0 (fun j _ hj => h j (by omega))

/-- Claim C3 witness: the amended theorem at the all-denied oracle with a
retry budget of 3. -/
theorem C3_exhaustion_silent_witness : set_clipboard_text attAllDenied 3 = SetResult.silent :=
  C3_exhaustion_silent attAllDenied 3 (fun _ _ => rfl)

/-- Claim C4 counterexample: with a selection present and every clipboard
call succeeding except the result-write (call 3), which raises a
non-transient error (code 6), on_hotkey propagates the failure but never
reaches any restore call — the snapshot is not written back even though
the cycle passed the arming clear. -/
theorem C4_counterexample :
    (on_hotkey attWriteRaises "ghbdtn" "old").err = some 6 ∧
    (on_hotkey attWriteRaises "ghbdtn" "old").restoreAttempted = false := by
  decide

/-- Claim C4 (amended): in a cycle whose snapshot read, arming clear and
selection read succeed on a non-empty selection, a result-write failure
is never both reported and followed by restore: if the write raises a
non-transient error, the error propagates and restore is not attempted
(there is no try/finally); if the write exhausts its transient retries,
it fails silently — no error is reported — and only then does the cycle
go on to the restore step. -/
theorem C4_write_failure (att : Nat → Nat → Attempt) (sel c0 : String) (c : Nat)
    (hsel : sel ≠ "")
    (h0 : get_clipboard_text (att 0) 5 = GetResult.got)
    (h1 : set_clipboard_text (att 1) 5 = SetResult.written)
    (h2 : get_clipboard_text (att 2) 5 = GetResult.got) :
    (set_clipboard_text (att 3) 5 = SetResult.raised c →
      (on_hotkey att sel c0).err = some c ∧
      (on_hotkey att sel c0).restoreAttempted = false) ∧
    (set_clipboard_text (att 3) 5 = SetResult.silent →
      set_clipboard_text (att 4) 5 = SetResult.written →
      (on_hotkey att sel c0).err = none ∧
      (on_hotkey att sel c0).restoreAttempted = true) := by
  constructor
  · intro h3
    simp only [on_hotkey, h0, h1, h2, h3, if_neg hsel]
    exact ⟨trivial, trivial⟩
  · intro h3 h4
    simp only [on_hotkey, h0, h1, h2, h3, h4, if_neg hsel]
    exact ⟨trivial, trivial⟩

/-- Claim C4 witness: the raise branch at the concrete raising oracle and
the exhaustion branch at the concrete exhausting oracle. -/
theorem C4_write_failure_witness :
    ((on_hotkey attWriteRaises "ghbdtn" "old").err = some 6 ∧
     (on_hotkey attWriteRaises "ghbdtn" "old").restoreAttempted = false) ∧
    ((on_hotkey attWriteExhausts "ghbdtn" "old").err = none ∧
     (on_hotkey attWriteExhausts "ghbdtn" "old").restoreAttempted = true) :=
  ⟨(C4_write_failure attWriteRaises "ghbdtn" "old" 6 (by decide)
      (by decide) (by decide) (by decide)).1 (by decide),
   (C4_write_failure attWriteExhausts "ghbdtn" "old" 0 (by decide)
      (by decide) (by decide) (by decide)).2 (by decide) (by decide)⟩

/-- Claim C5: in a cycle where every clipboard operation succeeds, no
error is reported and the clipboard's end-of-cycle content equals its
start-of-cycle content — in particular when nothing was selected or the
transform was a no-op — and when a non-empty selection was read, the
clipboard transiently held the transformed text fix_layout(sel) at the
paste step before being restored to the snapshot. -/
theorem C5_clipboard_restored (sel c0 : String) :
    (on_hotkey attAllOk sel c0).err = none ∧
    (on_hotkey attAllOk sel c0).clip = c0 ∧
    (sel ≠ "" → (on_hotkey attAllOk sel c0).pasted = some (fix_layout sel)) := by
  by_cases hsel : sel = ""
  · subst hsel
    exact ⟨rfl, rfl, fun h => absurd rfl h⟩
  · have e0 : get_clipboard_text (attAllOk 0) 5 = GetResult.got := rfl
    have e1 : set_clipboard_text (attAllOk 1) 5 = SetResult.written := rfl
    have e2 : get_clipboard_text (attAllOk 2) 5 = GetResult.got := rfl
    have e3 : set_clipboard_text (attAllOk 3) 5 = SetResult.written := rfl
    have e4 : set_clipboard_text (attAllOk 4) 5 = SetResult.written := rfl
    simp only [on_hotkey, e0, e1, e2, e3, e4, if_neg hsel]
    exact ⟨trivial, trivial, fun _ => trivial⟩

/-- Claim C5 witness: the all-success cycle on the concrete selection
"ghbdtn" with snapshot "old". -/
theorem C5_clipboard_restored_witness :
    (on_hotkey attAllOk "ghbdtn" "old").clip = "old" ∧
    (on_hotkey attAllOk "ghbdtn" "old").pasted = some (fix_layout "ghbdtn") :=
  ⟨(C5_clipboard_restored "ghbdtn" "old").2.1,
   (C5_clipboard_restored "ghbdtn" "old").2.2 (by decide)⟩

theorem register_hotkey_eq (hk : String) (s : HkState) :
    register_hotkey hk s =
      ⟨(match s.curId with
         | some i => s.regs.filter (fun p => decide (p.1 ≠ i))
         | none => s.regs) ++ [(s.nextId, hk)],
       s.nextId + 1, some hk, some hk, some s.nextId⟩ := by
  cases hcur : s.curId <;>
    simp [register_hotkey, remove_hotkey, add_hotkey, hcur]

/-- Claim C8: after register_hotkey("ctrl+alt+k") then
register_hotkey("ctrl+shift+q") from the program's initial state, exactly
one registration is active, bound to "ctrl+shift+q", the persisted
configuration and the current-hotkey globals hold the same string and the
stored id names that registration; and register_hotkey preserves the
invariant that at most one registration is active, pointed at by the
stored id and matching the persisted combination. -/
theorem C8_rebind :
    (register_hotkey "ctrl+alt+k" hkInit).regs = [(0, "ctrl+alt+k")] ∧
    (register_hotkey "ctrl+alt+k" hkInit).config = some "ctrl+alt+k" ∧
    (register_hotkey "ctrl+shift+q" (register_hotkey "ctrl+alt+k" hkInit)).regs =
      [(1, "ctrl+shift+q")] ∧
    (register_hotkey "ctrl+shift+q" (register_hotkey "ctrl+alt+k" hkInit)).config =
      some "ctrl+shift+q" ∧
    (register_hotkey "ctrl+shift+q" (register_hotkey "ctrl+alt+k" hkInit)).curStr =
      some "ctrl+shift+q" ∧
    (register_hotkey "ctrl+shift+q" (register_hotkey "ctrl+alt+k" hkInit)).curId = some 1 ∧
    ∀ (s : HkState) (hk : String), HkInv s → HkInv (register_hotkey hk s) := by
  refine ⟨by decide, by decide, by decide, by decide, by decide, by decide, ?_⟩
  rintro s hk ⟨hlen, hreg⟩
  rw [register_hotkey_eq]
  have hnil : (match s.curId with
      | some i => s.regs.filter (fun p => decide (p.1 ≠ i))
      | none => s.regs) = [] := by
    cases hcur : s.curId with
    | none =>
      cases hr : s.regs with
      | nil => rfl
      | cons p t =>
        have := (hreg p (by rw [hr]; exact List.mem_cons_self p t)).1
        rw [hcur] at this
        exact absurd this (by simp)
    | some i =>
      simp only []
      rw [List.filter_eq_nil_iff]
      intro p hp
      have hcid := (hreg p hp).1
      rw [hcur] at hcid
      have : p.1 = i := by injection hcid.symm
      simp [this]
  rw [hnil]
  constructor
  · simp
  · intro p hp
    simp only [List.nil_append, List.mem_singleton] at hp
    subst hp
    exact ⟨rfl, rfl⟩

/-- Claim C8 witness: the invariant-preservation component applied at the
initial state and the combination "ctrl+alt+k". -/
theorem C8_rebind_witness : HkInv (register_hotkey "ctrl+alt+k" hkInit) :=
  C8_rebind.2.2.2.2.2.2 hkInit "ctrl+alt+k" (by decide)
